import Mathlib

/-!
Shallow embedding of the ragpipes pipeline-orchestration core, and proofs
about it.  Each definition is translated from the repository's Python source
(file and function named in its doc comment).  Machine-level effects (wall
clock, network, broker I/O) are passed in as explicit parameters.
-/

/-- A JSON value, the structured data exchanged between stages.  Object
fields are an association list preserving insertion order, matching Python
dict ordering as serialized by `model_dump_json`. -/
inductive Json where
  | str (s : String)
  | num (n : Int)
  | bool (b : Bool)
  | null
  | arr (items : List Json)
  | obj (fields : List (String × Json))

/-- A string-keyed mapping with Python-dict insertion order, as used for
`options`, `outputs`, `metadata` and stage dictionaries. -/
abbrev StrMap := List (String × Json)

/-- First value bound to key `k`, mirroring Python `d[k]` / `d.get(k)`. -/
def lookupKey (d : StrMap) (k : String) : Option Json :=
  (d.find? (fun p => p.1 == k)).map (fun p => p.2)

/-- `True` iff key `k` is present, mirroring Python `k in d`. -/
def hasKey (d : StrMap) (k : String) : Bool :=
  d.any (fun p => p.1 == k)

/-- Python `d[k] = v`: replace the value in place when the key exists,
otherwise append the new binding at the end (dict insertion order). -/
def setKey (d : StrMap) (k : String) (v : Json) : StrMap :=
  if hasKey d k then
    d.map (fun p => if p.1 == k then (k, v) else p)
  else
    d ++ [(k, v)]

/-! ## Workflow history tracker — `src/ragpipes/protocol.py` -/

/-- `Stage` (protocol.py): one recorded stage execution. -/
structure Stage where
  name : String
  input : StrMap
  output : StrMap
  metadata : StrMap

/-- `Workflow` (protocol.py): ordered, append-only history of stages. -/
structure Workflow where
  history : List Stage

/-- `Action` (protocol.py): a named action whose stage logic is the
subclass's `_run` method, modelled as an explicit function field. -/
structure ActionModel where
  name : String
  logic : Workflow → StrMap → StrMap → StrMap

/-- `Action.run` (protocol.py lines 29-46): default the metadata, execute
the stage logic on the pre-`elapsed` metadata, record the elapsed wall time
under key `"elapsed"` (the clock is external, so the measured value is a
parameter), append the new `Stage` to the workflow history, and return an
empty mapping to the caller regardless of the logic's output. -/
def ActionModel.run (A : ActionModel) (wf : Workflow) (input : StrMap)
    (metadata : Option StrMap) (elapsed : Json) : Workflow × StrMap :=
  let md := metadata.getD []
  let output := A.logic wf input md
  let md₂ := setKey md "elapsed" elapsed
  (⟨wf.history ++ [⟨A.name, input, output, md₂⟩]⟩, [])

/-- One requested `Action.run` invocation: the action, its input, optional
metadata, and the externally measured elapsed time. -/
structure RunSpec where
  action : ActionModel
  input : StrMap
  metadata : Option StrMap
  elapsed : Json

/-- Sequentially apply further `Action.run` invocations to a workflow,
as the round-trip scenario in `src/ragpipes/tests.py` does. -/
def applyRuns (wf : Workflow) (specs : List RunSpec) : Workflow :=
  specs.foldl (fun w s => (s.action.run w s.input s.metadata s.elapsed).1) wf

/-- `Stage.model_dump_json` (pydantic serialization of protocol.py's
`Stage`): a four-field JSON object in declaration order. -/
def serializeStage (s : Stage) : Json :=
  .obj [("name", .str s.name), ("input", .obj s.input),
        ("output", .obj s.output), ("metadata", .obj s.metadata)]

/-- pydantic deserialization of a single `Stage` from JSON. -/
def deserializeStage (j : Json) : Option Stage :=
  match j with
  | .obj fields =>
    match lookupKey fields "name", lookupKey fields "input",
          lookupKey fields "output", lookupKey fields "metadata" with
    | some (.str n), some (.obj i), some (.obj o), some (.obj m) =>
      some ⟨n, i, o, m⟩
    | _, _, _, _ => none
  | _ => none

/-- Deserialize a list of stages, failing if any element fails. -/
def deserializeStages : List Json → Option (List Stage)
  | [] => some []
  | j :: rest =>
    match deserializeStage j, deserializeStages rest with
    | some s, some ss => some (s :: ss)
    | _, _ => none

/-- `Workflow.model_dump_json` (protocol.py): a one-field JSON object
holding the serialized history in order. -/
def serializeWorkflow (wf : Workflow) : Json :=
  .obj [("history", .arr (wf.history.map serializeStage))]

/-- `Workflow.model_validate_json` (protocol.py / tests.py line 21). -/
def deserializeWorkflow (j : Json) : Option Workflow :=
  match j with
  | .obj fields =>
    match lookupKey fields "history" with
    | some (.arr items) =>
      match deserializeStages items with
      | some ss => some ⟨ss⟩
      | none => none
    | _ => none
  | _ => none

theorem deserializeStage_serializeStage (s : Stage) :
    deserializeStage (serializeStage s) = some s := rfl

theorem deserializeStages_map (h : List Stage) :
    deserializeStages (h.map serializeStage) = some h := by
  induction h with
  | nil => rfl
  | cons s rest ih =>
    simp [List.map, deserializeStages, deserializeStage_serializeStage, ih]

theorem deserializeWorkflow_serializeWorkflow (wf : Workflow) :
    deserializeWorkflow (serializeWorkflow wf) = some wf := by
  simp [serializeWorkflow, deserializeWorkflow, lookupKey, List.find?,
    deserializeStages_map]

theorem applyRuns_history_append (wf : Workflow) (specs : List RunSpec) :
    ∃ tail, (applyRuns wf specs).history = wf.history ++ tail := by
  induction specs generalizing wf with
  | nil => exact ⟨[], by simp [applyRuns]⟩
  | cons s rest ih =>
    obtain ⟨t, ht⟩ := ih ((s.action.run wf s.input s.metadata s.elapsed).1)
    refine ⟨(s.action.run wf s.input s.metadata s.elapsed).1.history.drop
      wf.history.length ++ t, ?_⟩
    show (applyRuns ((s.action.run wf s.input s.metadata s.elapsed).1) rest).history = _
    rw [ht]
    simp [ActionModel.run]

/-- C8: serializing a workflow, deserializing it, appending further stages
via `Action.run`, and re-serializing preserves the original history as an
exact prefix, in insertion order. -/
theorem workflow_roundtrip_continuation (wf : Workflow) (specs : List RunSpec) :
    deserializeWorkflow (serializeWorkflow wf) = some wf ∧
    (applyRuns wf specs).history.take wf.history.length = wf.history ∧
    deserializeWorkflow (serializeWorkflow (applyRuns wf specs)) =
      some (applyRuns wf specs) := by
  refine ⟨deserializeWorkflow_serializeWorkflow wf, ?_,
    deserializeWorkflow_serializeWorkflow _⟩
  obtain ⟨t, ht⟩ := applyRuns_history_append wf specs
  rw [ht, List.take_left]

theorem lookupKey_setKey (d : StrMap) (k : String) (v : Json) :
    lookupKey (setKey d k v) k = some v := by
  by_cases h : hasKey d k
  · simp only [setKey, h, if_pos]
    induction d with
    | nil => simp [hasKey] at h
    | cons p rest ih =>
      by_cases hp : p.1 == k
      · simp [lookupKey, List.find?, hp]
      · simp only [List.map, hp, if_neg, Bool.false_eq_true, not_false_iff]
        have hrest : hasKey rest k := by
          simp only [hasKey, List.any, Bool.or_eq_true] at h ⊢
          rcases h with h | h
          · exact absurd h (by simp_all)
          · exact h
        simpa [lookupKey, List.find?, hp] using ih hrest
  · simp only [setKey, h, if_neg, Bool.false_eq_true, not_false_iff]
    induction d with
    | nil => simp [lookupKey, List.find?]
    | cons p rest ih =>
      have hp : (p.1 == k) = false := by
        simp only [hasKey, List.any, Bool.or_eq_true] at h
        push_neg at h
        simpa using h.1
      have hrest : ¬hasKey rest k := by
        simp only [hasKey, List.any, Bool.or_eq_true] at h
        push_neg at h
        simpa [hasKey] using h.2
      simpa [lookupKey, List.find?, hp] using ih hrest

/-- C9: each `Action.run` call appends exactly one stage record — carrying
the action's name, the given input, the stage logic's output, and metadata
containing the `elapsed` key — leaves prior history entries unchanged, and
returns the empty mapping regardless of the logic's output. -/
theorem action_run_appends_one_stage (A : ActionModel) (wf : Workflow)
    (input : StrMap) (metadata : Option StrMap) (elapsed : Json) :
    (A.run wf input metadata elapsed).2 = [] ∧
    (A.run wf input metadata elapsed).1.history.length = wf.history.length + 1 ∧
    (A.run wf input metadata elapsed).1.history.take wf.history.length =
      wf.history ∧
    ∃ st, (A.run wf input metadata elapsed).1.history.getLast? = some st ∧
      st.name = A.name ∧ st.input = input ∧
      st.output = A.logic wf input (metadata.getD []) ∧
      lookupKey st.metadata "elapsed" = some elapsed := by
  refine ⟨rfl, by simp [ActionModel.run], by simp [ActionModel.run, List.take_left], ?_⟩
  refine ⟨⟨A.name, input, A.logic wf input (metadata.getD []),
    setKey (metadata.getD []) "elapsed" elapsed⟩,
    ?_, rfl, rfl, rfl, lookupKey_setKey _ _ _⟩
  simp [ActionModel.run]

/-! ## Chunking — `src/src/ragpipes/ingestion/document_processor.py` -/

/-- Resolve one Python slice bound for a sequence of length `n`: negative
indices count from the end, and both directions clamp into `[0, n]`. -/
def pyIdx (n : Nat) (i : Int) : Nat :=
  if i < 0 then ((n : Int) + i).toNat else min i.toNat n

/-- Python `s[a:b]` on a character list (empty when the resolved start is
at or past the resolved stop). -/
def pySlice (l : List Char) (a b : Int) : List Char :=
  (l.take (pyIdx l.length b)).drop (pyIdx l.length a)

/-- Python `s[a:]` on a character list. -/
def pySliceFrom (l : List Char) (a : Int) : List Char :=
  l.drop (pyIdx l.length a)

/-- The whitespace characters recognised by Python `str.strip()` (ASCII
subset; the inputs considered here contain no exotic Unicode spaces). -/
def isPySpace (c : Char) : Bool :=
  c == ' ' || c == '\t' || c == '\n' || c == '\r' || c == '\x0b' || c == '\x0c'

/-- Python `str.strip()`: drop leading and trailing whitespace. -/
def pyStrip (l : List Char) : List Char :=
  ((l.dropWhile isPySpace).reverse.dropWhile isPySpace).reverse

/-- `chunk[i] in [".", "!", "?", "\n\n"]` (document_processor.py line 220,
224): Python compares the one-character string `chunk[i]` for equality with
each list element, so the two-character element `"\n\n"` can never match. -/
def isSentenceEnding (c : Char) : Bool :=
  [".", "!", "?", "\n\n"].contains (String.mk [c])

/-- The backward scan of document_processor.py lines 221-226, indexed by the
number `m` of positions left to visit: the current index is `stop + m`, so
the walk covers `i = chunk.length - 1` down to `stop + 1` (Python
`range(len(chunk)-1, max(0, len(chunk)-200), -1)`), returning `i + 1` for
the first sentence-ending character found, else `-1`. -/
def findBreakGo (chunk : List Char) (stop : Nat) : Nat → Int
  | 0 => -1
  | m + 1 =>
    if isSentenceEnding (chunk.getD (stop + m + 1) ' ') then
      ((stop + m + 1 : Nat) : Int) + 1
    else
      findBreakGo chunk stop m

/-- `best_break` as computed by document_processor.py lines 221-226, with
`stop = max(0, len(chunk) - 200)` expressed by truncated `Nat` subtraction. -/
def findBreak (chunk : List Char) : Int :=
  findBreakGo chunk (chunk.length - 200) ((chunk.length - 1) - (chunk.length - 200))

/-- The `while start < len(text)` loop of `_split_text`
(document_processor.py lines 207-234), with an explicit fuel bound because
the Python loop does not terminate for all parameters; `none` means the
fuel ran out before the loop finished.  `start` is an `Int` because the
update `start = start + best_break - chunk_overlap` can drive it negative,
after which Python slicing semantics (see `pyIdx`) apply. -/
def splitLoop (text : List Char) (chunkSize chunkOverlap : Int) :
    Nat → Int → Option (List (List Char))
  | 0, _ => none
  | fuel + 1, start =>
    if start < (text.length : Int) then
      let e := start + chunkSize
      if e ≥ (text.length : Int) then
        some [pySliceFrom text start]
      else
        let chunk := pySlice text start e
        let bb := findBreak chunk
        if bb > 0 then
          (splitLoop text chunkSize chunkOverlap fuel (start + bb - chunkOverlap)).map
            (fun rest => pySlice chunk 0 bb :: rest)
        else
          (splitLoop text chunkSize chunkOverlap fuel (e - chunkOverlap)).map
            (fun rest => chunk :: rest)
    else
      some []

/-- `DocumentProcessor._split_text` (document_processor.py lines 190-236):
texts no longer than `chunkSize` are returned as a single raw chunk;
otherwise the window loop runs and the final comprehension
`[chunk.strip() for chunk in chunks if chunk.strip()]` strips each chunk
and drops the whitespace-only ones. -/
def splitText (fuel : Nat) (text : List Char) (chunkSize chunkOverlap : Int) :
    Option (List (List Char)) :=
  if (text.length : Int) ≤ chunkSize then
    some [text]
  else
    (splitLoop text chunkSize chunkOverlap fuel 0).map
      (fun chunks => (chunks.map pyStrip).filter (fun c => !c.isEmpty))

/-- `DocumentProcessor.process_text` (document_processor.py lines 42-46),
restricted to the chunk list it computes: a blank (empty or
whitespace-only) text yields no chunks at all, otherwise the text is split
by `_split_text`. -/
def processTextChunks (fuel : Nat) (text : List Char)
    (chunkSize chunkOverlap : Int) : Option (List (List Char)) :=
  if (pyStrip text).isEmpty then some []
  else splitText fuel text chunkSize chunkOverlap

/-- Concatenation of a chunk list with each chunk's leading overlap region
(`ov` characters) removed from every chunk after the first — the
reconstruction the spec asserts recovers the original text. -/
def overlapConcat (ov : Nat) : List (List Char) → List Char
  | [] => []
  | c :: rest => c ++ (rest.map (fun d => d.drop ov)).flatten

/-- Modelled from the spec: the chunking stage's whitespace normalization,
"normalize runs of blank lines to a single blank line" (§4.3) — no such
normalization exists in `document_processor.py`, so this definition follows
the spec's words: runs of more than two consecutive newlines collapse to
exactly two.  The counter `k` is the number of newlines already kept in the
current run. -/
def specNormalizeGo (k : Nat) : List Char → List Char
  | [] => []
  | c :: rest =>
    if c == '\n' then
      if k < 2 then c :: specNormalizeGo (k + 1) rest
      else specNormalizeGo (k + 1) rest
    else
      c :: specNormalizeGo 0 rest

/-- Modelled from the spec: collapse every run of blank lines to a single
blank line (§4.3's whitespace normalization of the chunking stage). -/
def specNormalizeBlankLines (l : List Char) : List Char :=
  specNormalizeGo 0 l

/-- The membership test of document_processor.py line 224 only ever matches
the three one-character terminators: the `"\n\n"` entry of
`sentence_endings` is compared against a single character and never
matches, so a blank line is not a break point. -/
theorem isSentenceEnding_eq_three_marks (c : Char) :
    isSentenceEnding c = (c == '.' || c == '!' || c == '?') := by
  show (String.mk [c] == "." || (String.mk [c] == "!" ||
    (String.mk [c] == "?" || (String.mk [c] == "\x0a\x0a" || false)))) = _
  have hne : (String.mk [c] == "\x0a\x0a") = false := by
    apply beq_eq_false_iff_ne.mpr
    intro h
    have hd := congrArg String.data h
    simp at hd
  rw [hne]
  by_cases h1 : c = '.'
  · subst h1; rfl
  · by_cases h2 : c = '!'
    · subst h2; rfl
    · by_cases h3 : c = '?'
      · subst h3; rfl
      · have e1 : (String.mk [c] == ".") = false := by
          apply beq_eq_false_iff_ne.mpr
          intro h; apply h1
          have := congrArg String.data h
          simpa using this
        have e2 : (String.mk [c] == "!") = false := by
          apply beq_eq_false_iff_ne.mpr
          intro h; apply h2
          have := congrArg String.data h
          simpa using this
        have e3 : (String.mk [c] == "?") = false := by
          apply beq_eq_false_iff_ne.mpr
          intro h; apply h3
          have := congrArg String.data h
          simpa using this
        have f1 : (c == '.') = false := beq_eq_false_iff_ne.mpr h1
        have f2 : (c == '!') = false := beq_eq_false_iff_ne.mpr h2
        have f3 : (c == '?') = false := beq_eq_false_iff_ne.mpr h3
        rw [e1, e2, e3, f1, f2, f3]
        rfl

/-- C5: the chunker never breaks at a blank line — the `"\n\n"` entry of
the terminator list can never match a single character, so only `.`, `!`
and `?` are break points; concretely, the text `"abcd\n\nefghijklmnop"`
with `chunkSize = 10, chunkOverlap = 0` is hard-cut to `"abcd\n\nefgh"`
even though the blank line at offsets 4-5 lies inside the lookback window,
contradicting the claimed blank-line boundary preference. -/
theorem chunker_blank_line_never_breaks :
    (∀ c : Char, isSentenceEnding c = (c == '.' || c == '!' || c == '?')) ∧
    splitText 100 "abcd\n\nefghijklmnop".toList 10 0 =
      some ["abcd\n\nefgh".toList, "ijklmnop".toList] :=
  ⟨isSentenceEnding_eq_three_marks, rfl⟩

/-- C6: chunking drops non-whitespace characters.  For
`"ab.defghijklmnopqrstuvwxyz"` with `chunkSize = 10, chunkOverlap = 5`, the
first break position (3) is smaller than the overlap, so the window start
moves backwards (to -2) and Python slicing then skips characters `defgh`:
reassembling all produced chunks with each later chunk's leading 5-character
overlap removed yields `"ab.ijklmnopqrstuvwxyz"`, not the original text,
although the text contains no whitespace at all. -/
theorem chunker_drops_characters :
    splitText 100 "ab.defghijklmnopqrstuvwxyz".toList 10 5 =
      some ["ab.".toList, "defghijklm".toList, "ijklmnopqr".toList,
            "nopqrstuvw".toList, "stuvwxyz".toList] ∧
    overlapConcat 5
      ["ab.".toList, "defghijklm".toList, "ijklmnopqr".toList,
       "nopqrstuvw".toList, "stuvwxyz".toList] =
      "ab.ijklmnopqrstuvwxyz".toList ∧
    "ab.ijklmnopqrstuvwxyz".toList ≠ "ab.defghijklmnopqrstuvwxyz".toList ∧
    "ab.defghijklmnopqrstuvwxyz".toList.all (fun c => !isPySpace c) = true :=
  ⟨rfl, rfl, by decide, by decide⟩

/-- C10: `_split_text` does not terminate for every admissible parameter
pair.  On `"abcd.fghijklmnopqrstuvwxyz"` with `chunkSize = 10,
chunkOverlap = 5`, the break position equals the overlap, so the window
start stays at 0 forever: no finite fuel bound completes the loop. -/
theorem chunker_loop_nonterminating :
    ∀ fuel : Nat,
      splitText fuel "abcd.fghijklmnopqrstuvwxyz".toList 10 5 = none := by
  intro fuel
  have step : ∀ n : Nat,
      splitLoop "abcd.fghijklmnopqrstuvwxyz".toList 10 5 (n + 1) 0 =
        (splitLoop "abcd.fghijklmnopqrstuvwxyz".toList 10 5 n 0).map
          (fun rest => "abcd.".toList :: rest) := fun _ => rfl
  have key : ∀ n : Nat,
      splitLoop "abcd.fghijklmnopqrstuvwxyz".toList 10 5 n 0 = none := by
    intro n
    induction n with
    | zero => rfl
    | succ k ih => rw [step k, ih]; rfl
  show (if ((26 : Int) ≤ 10) then _ else _) = none
  rw [if_neg (by omega)]
  rw [key fuel]
  rfl

/-- C7 counterexample: a short text is returned as one **raw** chunk, not a
whitespace-normalized one — `"a\n\n\n\nb"` (shorter than `chunkSize = 10`)
comes back verbatim, while its blank-line-normalized form is `"a\n\nb"`. -/
theorem short_text_not_normalized :
    processTextChunks 100 "a\n\n\n\nb".toList 10 2 =
      some ["a\n\n\n\nb".toList] ∧
    specNormalizeBlankLines "a\n\n\n\nb".toList = "a\n\nb".toList ∧
    "a\n\n\n\nb".toList ≠ specNormalizeBlankLines "a\n\n\n\nb".toList :=
  ⟨rfl, rfl, by decide⟩

/-- C7 (amended): a non-blank text shorter than `chunkSize` yields exactly
one chunk equal to the input itself (no normalization is applied on this
path), and a blank (empty or whitespace-only) text yields no chunks. -/
theorem short_text_single_chunk :
    (∀ (fuel : Nat) (text : List Char) (cs co : Int),
      ¬(pyStrip text).isEmpty → (text.length : Int) < cs →
      processTextChunks fuel text cs co = some [text]) ∧
    (∀ (fuel : Nat) (text : List Char) (cs co : Int),
      (pyStrip text).isEmpty → processTextChunks fuel text cs co = some []) := by
  constructor
  · intro fuel text cs co h1 h2
    rw [processTextChunks, if_neg (by simpa using h1), splitText,
      if_pos (le_of_lt h2)]
  · intro fuel text cs co h1
    rw [processTextChunks, if_pos (by simpa using h1)]

/-- Witness for `short_text_single_chunk` at concrete inputs. -/
theorem short_text_single_chunk_witness :
    processTextChunks 5 "hi".toList 10 3 = some ["hi".toList] ∧
    processTextChunks 5 " \n ".toList 10 3 = some [] :=
  ⟨short_text_single_chunk.1 5 "hi".toList 10 3 (by decide) (by decide),
   short_text_single_chunk.2 5 " \n ".toList 10 3 (by decide)⟩

/-! ## Message envelope & stage contract validation —
`src/ragpipes/handlers/utils.py` (with pydantic v2 semantics) -/

/-- A Python exception escaping validation: a `ValidationError` (or a
validator's `ValueError`, which pydantic wraps into one) is caught by
`validate_payload`; any other exception type (e.g. `TypeError`) propagates
to the caller. -/
inductive PyErr where
  | validation (msg : String)
  | typeError (msg : String)

/-- A langchain `Document` as parsed by pydantic inside `MessageBody.docs`:
required text body, optional id, metadata mapping. -/
structure LCDocument where
  id : Option String
  pageContent : String
  metadata : StrMap

/-- `MessageBody` (handlers/utils.py lines 17-21): the validated envelope
exchanged between stages. -/
structure Envelope where
  docs : List LCDocument
  options : StrMap
  outputs : StrMap
  metadata : StrMap

/-- pydantic parse of one langchain `Document` value: `page_content` is a
required string, `metadata` defaults to an empty mapping, `id` is an
optional string. -/
def parseLCDoc (j : Json) : Except PyErr LCDocument :=
  match j with
  | .obj f =>
    match lookupKey f "page_content" with
    | some (.str pc) =>
      match (match lookupKey f "metadata" with
             | some (.obj m) => some m
             | none => some []
             | some _ => none),
            (match lookupKey f "id" with
             | some (.str s) => some (some s)
             | some .null => some none
             | none => some none
             | some _ => none) with
      | some m, some i => .ok ⟨i, pc, m⟩
      | _, _ => .error (.validation "document field invalid")
    | _ => .error (.validation "page_content required")
  | _ => .error (.validation "document must be an object")

/-- pydantic parse of each element of a supplied `docs` list. -/
def parseDocList : List Json → Except PyErr (List LCDocument)
  | [] => .ok []
  | j :: rest =>
    match parseLCDoc j, parseDocList rest with
    | .ok d, .ok ds => .ok (d :: ds)
    | .error e, _ => .error e
    | _, .error e => .error e

/-- pydantic parse of a supplied `docs` value (must be a list). -/
def parseDocs (v : Json) : Except PyErr (List LCDocument) :=
  match v with
  | .arr items => parseDocList items
  | _ => .error (.validation "docs must be a list")

/-- Python `needle` is a prefix of `hay` (character-wise equality). -/
def pyStartsWith : List Char → List Char → Bool
  | _, [] => true
  | [], _ :: _ => false
  | c :: t, n :: m => c == n && pyStartsWith t m

/-- Python substring containment, as used by `needle in hay` on strings. -/
def pySubstr : List Char → List Char → Bool
  | [], needle => needle.isEmpty
  | c :: t, needle => pyStartsWith (c :: t) needle || pySubstr t needle

/-- Python `k in v` inside `validate_options` (handlers/utils.py line 26):
key lookup on a dict, element equality on a list, substring test on a
string, and a `TypeError` on non-container values. -/
def pyIn (k : String) (v : Json) : Except PyErr Bool :=
  match v with
  | .obj fields => .ok (hasKey fields k)
  | .arr items => .ok (items.any (fun x => match x with
      | .str s => s == k
      | _ => false))
  | .str s => .ok (pySubstr s.toList k.toList)
  | _ => .error (.typeError "argument is not iterable")

/-- `validate_options` (handlers/utils.py lines 24-28): walk the required
keys in order and raise `ValueError` (pydantic: a validation error) at the
first missing one; a membership test on a non-container value raises
`TypeError` instead. -/
def checkRequired (required : List String) (v : Json) : Except PyErr Unit :=
  match required with
  | [] => .ok ()
  | k :: rest =>
    match pyIn k v with
    | .error e => .error e
    | .ok true => checkRequired rest v
    | .ok false => .error (.validation ("Key must be present in options: " ++ k))

/-- The full pydantic treatment of a **supplied** `options` value for a
stage input model (e.g. `InputModel` in handlers/chat.py lines 24-28): the
`mode="before"` validator `validate_options` runs first, then the value is
coerced to `Dict[str, Any]`. -/
def validateOptionsField (required : List String) (v : Json) : Except PyErr StrMap :=
  match checkRequired required v with
  | .error e => .error e
  | .ok _ =>
    match v with
    | .obj fields => .ok fields
    | _ => .error (.validation "options must be a mapping")

/-- pydantic parse of a `Dict[str, Any]` field with default `{}`
(`outputs`, `metadata`). -/
def objFieldOrDefault (fields : StrMap) (k : String) : Except PyErr StrMap :=
  match lookupKey fields k with
  | none => .ok []
  | some (.obj m) => .ok m
  | some _ => .error (.validation ("field must be a mapping: " ++ k))

/-- `model.model_validate(payload)` for a stage input model whose contract
is `required` over `options`.  pydantic v2 semantics: a non-dict payload is
a validation error; absent fields take their defaults **without running
field validators** (`validate_default` is false), so the required-keys
check only runs when `options` is supplied; a `TypeError` raised inside the
before-validator propagates, while `ValueError`s and coercion failures
become the single `ValidationError`. -/
def validateMessageBody (required : List String) (payload : Json) :
    Except PyErr Envelope :=
  match payload with
  | .obj fields =>
    match (match lookupKey fields "options" with
           | none => Except.ok []
           | some v => validateOptionsField required v) with
    | .error e => .error e
    | .ok opts =>
      match (match lookupKey fields "docs" with
             | none => Except.ok []
             | some v => parseDocs v),
            objFieldOrDefault fields "outputs",
            objFieldOrDefault fields "metadata" with
      | .ok ds, .ok os, .ok ms => .ok ⟨ds, opts, os, ms⟩
      | .error e, _, _ => .error e
      | _, .error e, _ => .error e
      | _, _, .error e => .error e
  | _ => .error (.validation "Input should be a valid dictionary")

/-- `validate_payload` (handlers/utils.py lines 31-37): run the model
validation, catch `ValidationError` (log the failed payload) and return
`None`; any other exception escapes to the caller (`Except.error`). -/
def validatePayload (required : List String) (payload : Json) :
    Except String (Option Envelope) :=
  match validateMessageBody required payload with
  | .ok env => .ok (some env)
  | .error (.validation _) => .ok none
  | .error (.typeError m) => .error m

theorem hasKey_eq_isSome (d : StrMap) (k : String) :
    hasKey d k = (lookupKey d k).isSome := by
  induction d with
  | nil => rfl
  | cons p rest ih =>
    by_cases hp : p.1 == k
    · simp [hasKey, lookupKey, List.find?, hp]
    · simp only [Bool.not_eq_true] at hp
      simp [hasKey, lookupKey, List.find?, hp] at ih ⊢
      exact ih

theorem checkRequired_error (required : List String) (opts : StrMap) (k : String)
    (hk : k ∈ required) (hmiss : hasKey opts k = false) :
    ∃ m, checkRequired required (.obj opts) = .error (.validation m) := by
  induction required with
  | nil => cases hk
  | cons k₀ rest ih =>
    by_cases h₀ : hasKey opts k₀
    · have hne : k ∈ rest := by
        cases hk with
        | head => rw [hmiss] at h₀; cases h₀
        | tail _ h => exact h
      obtain ⟨m, hm⟩ := ih hne
      exact ⟨m, by simp [checkRequired, pyIn, h₀, hm]⟩
    · refine ⟨"Key must be present in options: " ++ k₀, ?_⟩
      simp only [Bool.not_eq_true] at h₀
      simp [checkRequired, pyIn, h₀]

/-- C2 counterexample: the **empty payload** `{}` is missing the chat
stage's required `query` key, yet validation succeeds — pydantic does not
run the `options` before-validator when the field is absent and takes the
default empty mapping, so `validate_payload` returns the envelope instead
of `None`. -/
theorem empty_payload_passes_validation :
    validatePayload ["query"] (.obj []) = .ok (some ⟨[], [], [], []⟩) ∧
    (Except.ok (some ⟨[], [], [], []⟩) : Except String (Option Envelope)) ≠
      .ok none :=
  ⟨rfl, by simp⟩

/-- C2 (amended): whenever the payload **supplies** an `options` mapping
missing a required key, and whenever the payload is not a JSON object,
`validate_payload` returns `None` without raising; a payload omitting
`options` entirely bypasses the required-key check (see
`empty_payload_passes_validation`). -/
theorem validate_missing_key_returns_none :
    (∀ (required : List String) (k : String) (fields opts : StrMap),
      k ∈ required →
      lookupKey fields "options" = some (.obj opts) →
      lookupKey opts k = none →
      validatePayload required (.obj fields) = .ok none) ∧
    (∀ (required : List String) (j : Json),
      (∀ fields, j ≠ .obj fields) →
      validatePayload required j = .ok none) := by
  constructor
  · intro required k fields opts hk hopts hmiss
    have hmiss' : hasKey opts k = false := by
      rw [hasKey_eq_isSome, hmiss]
      rfl
    obtain ⟨m, hm⟩ := checkRequired_error required opts k hk hmiss'
    have hvo : validateOptionsField required (.obj opts) =
        .error (.validation m) := by
      rw [validateOptionsField, hm]
    have hbody : validateMessageBody required (.obj fields) =
        .error (.validation m) := by
      simp only [validateMessageBody, hopts, hvo]
    simp [validatePayload, hbody]
  · intro required j hj
    match j with
    | .obj fields => exact absurd rfl (hj fields)
    | .str s => rfl
    | .num n => rfl
    | .bool b => rfl
    | .null => rfl
    | .arr xs => rfl

/-- Witness for `validate_missing_key_returns_none` at concrete inputs. -/
theorem validate_missing_key_returns_none_witness :
    validatePayload ["query"] (.obj [("options", .obj [("other", .null)])]) =
      .ok none ∧
    validatePayload ["query"] (.str "nope") = .ok none :=
  ⟨validate_missing_key_returns_none.1 ["query"] "query"
      [("options", .obj [("other", .null)])] [("other", .null)]
      (by simp) rfl rfl,
   validate_missing_key_returns_none.2 ["query"] (.str "nope")
      (fun fields h => Json.noConfusion h)⟩

/-! ## Dispatcher — `src/ragpipes/__main__.py` -/

/-- `Document.model_dump_json` of a langchain document inside an outbound
envelope. -/
def serializeLCDoc (d : LCDocument) : Json :=
  .obj [("id", match d.id with | some s => .str s | none => .null),
        ("page_content", .str d.pageContent), ("metadata", .obj d.metadata)]

/-- `response.model_dump_json()` (__main__.py line 91): the serialized
outbound envelope. -/
def serializeEnvelope (e : Envelope) : Json :=
  .obj [("docs", .arr (e.docs.map serializeLCDoc)), ("options", .obj e.options),
        ("outputs", .obj e.outputs), ("metadata", .obj e.metadata)]

/-- The MQTT settings the dispatcher reads: the configured stage name and
the comma-delimited outbound topic list. -/
structure MqttConfig where
  handlerName : String
  topicOut : String

/-- A stage handler as invoked by the dispatcher: it may return an envelope,
return nothing, or raise (modelled by `Except.error`, covering exceptions
from nested external calls as well). -/
abbrev HandlerFn := Json → Except String (Option Envelope)

/-- Lookup in the `HANDLERS` table (__main__.py lines 58-66, 81). -/
def lookupHandler (table : List (String × HandlerFn)) (k : String) :
    Option HandlerFn :=
  (table.find? (fun p => p.1 == k)).map (fun p => p.2)

/-- What one `on_message` invocation did: the messages it published and the
error lines it logged. -/
structure DispatchOutcome where
  published : List (String × Json)
  errors : List String

/-- `on_message` (__main__.py lines 69-95): decode the payload (log and
drop on failure), look up the configured handler (log and drop when
unknown), invoke it with any exception caught and logged, and publish a
truthy response to every comma-delimited outbound topic.  JSON decoding of
raw bytes is an external library call, passed in as `decode`. -/
def onMessage (decode : String → Option Json)
    (table : List (String × HandlerFn)) (cfg : MqttConfig) (raw : String) :
    DispatchOutcome :=
  match decode raw with
  | none => ⟨[], ["Invalid JSON payload"]⟩
  | some payload =>
    match lookupHandler table cfg.handlerName with
    | none => ⟨[], ["Unknown handler: " ++ cfg.handlerName]⟩
    | some h =>
      match h payload with
      | .error e => ⟨[], ["Error processing message: " ++ e]⟩
      | .ok none => ⟨[], []⟩
      | .ok (some resp) =>
        ⟨(cfg.topicOut.splitOn ",").map (fun t => (t, serializeEnvelope resp)), []⟩

/-- The dispatch loop (`loop_forever`): every inbound message is served by
`on_message`; the outcome of one message never affects the processing of
the rest. -/
def processMessages (decode : String → Option Json)
    (table : List (String × HandlerFn)) (cfg : MqttConfig)
    (msgs : List String) : List DispatchOutcome :=
  msgs.map (onMessage decode table cfg)

/-- C1: when the configured handler raises during invocation, the
dispatcher logs the error, publishes nothing for that invocation, and the
loop still serves every subsequent message exactly as it would have
otherwise — one outcome per inbound message, so no handler failure
terminates the loop. -/
theorem dispatcher_isolates_handler_failure
    (decode : String → Option Json) (table : List (String × HandlerFn))
    (cfg : MqttConfig) (raw : String) (payload : Json) (h : HandlerFn)
    (e : String) (rest : List String)
    (hdec : decode raw = some payload)
    (hlook : lookupHandler table cfg.handlerName = some h)
    (herr : h payload = .error e) :
    (onMessage decode table cfg raw).published = [] ∧
    (onMessage decode table cfg raw).errors =
      ["Error processing message: " ++ e] ∧
    processMessages decode table cfg (raw :: rest) =
      onMessage decode table cfg raw :: processMessages decode table cfg rest ∧
    (processMessages decode table cfg (raw :: rest)).length = rest.length + 1 := by
  refine ⟨?_, ?_, rfl, by simp [processMessages]⟩
  · simp only [onMessage, hdec, hlook, herr]
  · simp only [onMessage, hdec, hlook, herr]

/-- Witness for `dispatcher_isolates_handler_failure` at a concrete failing
handler. -/
theorem dispatcher_isolates_handler_failure_witness :
    (onMessage (fun _ => some Json.null)
      [("chat", fun _ => Except.error "boom")] ⟨"chat", "out"⟩ "x").published = [] ∧
    (onMessage (fun _ => some Json.null)
      [("chat", fun _ => Except.error "boom")] ⟨"chat", "out"⟩ "x").errors =
      ["Error processing message: boom"] ∧
    processMessages (fun _ => some Json.null)
      [("chat", fun _ => Except.error "boom")] ⟨"chat", "out"⟩ ["x", "y"] =
      onMessage (fun _ => some Json.null)
        [("chat", fun _ => Except.error "boom")] ⟨"chat", "out"⟩ "x" ::
      processMessages (fun _ => some Json.null)
        [("chat", fun _ => Except.error "boom")] ⟨"chat", "out"⟩ ["y"] ∧
    (processMessages (fun _ => some Json.null)
      [("chat", fun _ => Except.error "boom")] ⟨"chat", "out"⟩ ["x", "y"]).length =
      1 + 1 :=
  dispatcher_isolates_handler_failure (fun _ => some Json.null)
    [("chat", fun _ => Except.error "boom")] ⟨"chat", "out"⟩ "x" Json.null
    (fun _ => Except.error "boom") "boom" ["y"] rfl rfl rfl

/-! ## Retriever — `src/src/ragpipes/rag/retriever.py` -/

/-- The result shape of `ChromaStore.query`: parallel nested lists keyed by
ids / documents / metadatas / distances (`none` models a falsy result). -/
structure ChromaResults where
  ids : List (List String)
  documents : List (List String)
  metadatas : List (List StrMap)
  distances : List (List Rat)

/-- A retrieved document annotated with similarity and distance, as the
formatting loop of `RAGRetriever.retrieve` would build it. -/
structure RetrievedDoc where
  id : String
  content : String
  metadata : StrMap
  similarity : Rat
  distance : Rat

/-- `RAGRetriever.retrieve` (retriever.py lines 32-75): embed the query
(empty embedding → empty result), query the store, and guard against falsy
results.  The formatting loop of lines 55-73 sits **after** the
`return []` of line 54, inside the same `if` block, so it is unreachable:
on the fall-through path the function returns the still-empty `documents`
list.  The embeddings client and vector store are external collaborators,
passed as functions. -/
def retrieve (embedTexts : List String → List (List Rat))
    (storeQuery : List Rat → Nat → Option ChromaResults)
    (topK : Nat) (query : String) : List RetrievedDoc :=
  match embedTexts [query] with
  | [] => []
  | qe :: _ =>
    let documents : List RetrievedDoc := []
    match storeQuery qe topK with
    | none => []
    | some r =>
      match r.ids with
      | [] => []
      | ids₀ :: _ =>
        if ids₀.isEmpty then
          []
        else
          documents

/-- The store reply for the spec's end-to-end scenario: one indexed
document with content about Python and metadata filename `sample1.txt`. -/
def sampleChromaResults : ChromaResults :=
  ⟨[["doc1"]], [["Python is a programming language"]],
   [[[("filename", Json.str "sample1.txt")]]], [[0]]⟩

/-- C3: `retrieve` returns the empty list for **every** input — including
queries whose store reply contains matches — because the loop that formats
and collects matches is dead code behind a `return []`.  The second
conjunct evaluates the concrete one-match scenario; the third records that
its reply really contains a match. -/
theorem retrieve_always_empty :
    (∀ (embedTexts : List String → List (List Rat))
       (storeQuery : List Rat → Nat → Option ChromaResults)
       (topK : Nat) (q : String),
       retrieve embedTexts storeQuery topK q = []) ∧
    retrieve (fun _ => [[1]]) (fun _ _ => some sampleChromaResults) 5 "Python" =
      [] ∧
    sampleChromaResults.ids.head? = some ["doc1"] := by
  refine ⟨?_, rfl, rfl⟩
  intro embedTexts storeQuery topK q
  rcases hqe : embedTexts [q] with _ | ⟨qe, tl⟩ <;> simp only [retrieve, hqe]
  rcases hsq : storeQuery qe topK with _ | r <;> simp only [hsq]
  rcases hids : r.ids with _ | ⟨ids₀, t⟩ <;> simp only [hids]
  split <;> rfl

/-! ## Chat handler output — `src/ragpipes/handlers/chat.py` -/

/-- The per-document provenance entry `dict(id=..., content=...,
metadata=...)` of chat.py line 86. -/
def docJson (d : LCDocument) : Json :=
  .obj [("id", match d.id with | some s => .str s | none => .null),
        ("content", .str d.pageContent), ("metadata", .obj d.metadata)]

/-- The provenance list of chat.py lines 85-88: the first two retrieved
documents (`response["context"][:2]`), projected to id/content/metadata. -/
def chatContext (ctxDocs : List LCDocument) : List Json :=
  (ctxDocs.take 2).map docJson

/-- The final output envelope of chat.py lines 90-94:
`MessageBody(outputs=dict(answer=..., context=...), metadata=payload.metadata)`. -/
def buildChatResponse (answer : String) (ctxDocs : List LCDocument)
    (metadata : StrMap) : Envelope :=
  { docs := [], options := [],
    outputs := [("answer", .str answer), ("context", .arr (chatContext ctxDocs))],
    metadata := metadata }

/-- C4: the final chat output carries the generated answer, and its
provenance list holds exactly `min 2 n` entries: entry `i` is the
id/content/metadata projection of retrieved document `i`, and every entry
comes from one of the first two retrieved documents — documents beyond the
top 2 never appear. -/
theorem chat_output_caps_provenance_at_two (answer : String)
    (docs : List LCDocument) (md : StrMap) :
    lookupKey (buildChatResponse answer docs md).outputs "answer" =
      some (.str answer) ∧
    lookupKey (buildChatResponse answer docs md).outputs "context" =
      some (.arr (chatContext docs)) ∧
    (chatContext docs).length = min 2 docs.length ∧
    (∀ i (h₁ : i < (chatContext docs).length) (h₂ : i < docs.length),
      (chatContext docs).get ⟨i, h₁⟩ = docJson (docs.get ⟨i, h₂⟩)) ∧
    (∀ e ∈ chatContext docs, ∃ d ∈ docs.take 2, e = docJson d) := by
  refine ⟨rfl, rfl, by simp [chatContext], ?_, ?_⟩
  · intro i h₁ h₂
    simp only [chatContext, List.get_eq_getElem, List.getElem_map]
    congr 1
    exact List.getElem_take _
  · intro e he
    simp only [chatContext, List.mem_map] at he
    obtain ⟨d, hd, rfl⟩ := he
    exact ⟨d, hd, rfl⟩

/-- Witness for `chat_output_caps_provenance_at_two` with three retrieved
documents: the context has two entries and the first projects document 0. -/
theorem chat_output_caps_provenance_at_two_witness :
    lookupKey (buildChatResponse "ans"
      [⟨none, "one", []⟩, ⟨none, "two", []⟩, ⟨none, "three", []⟩] []).outputs
      "answer" = some (.str "ans") ∧
    (chatContext [⟨none, "one", []⟩, ⟨none, "two", []⟩, ⟨none, "three", []⟩]).length =
      min 2 3 ∧
    (chatContext [⟨none, "one", []⟩, ⟨none, "two", []⟩, ⟨none, "three", []⟩]).get
        ⟨0, by simp [chatContext]⟩ =
      docJson (([⟨none, "one", []⟩, ⟨none, "two", []⟩, ⟨none, "three", []⟩] :
        List LCDocument).get ⟨0, by simp⟩) := by
  obtain ⟨h₁, _, h₃, h₄, _⟩ := chat_output_caps_provenance_at_two "ans"
    [⟨none, "one", []⟩, ⟨none, "two", []⟩, ⟨none, "three", []⟩] []
  exact ⟨h₁, by simpa using h₃, h₄ 0 (by simp [chatContext]) (by simp)⟩
